import Mathlib

/-!
Verification of the credential-validation engine (server routes and in-memory
storage) against its natural-language specification.

The embedding works over explicit character lists for the string-processing
parts (the JavaScript string primitives `split`, `trim`, `includes`, the two
regular expressions, and the separator loop of `parseAccountFile`), over an
explicit network environment for the outbound requests of
`validateTiendaNubeAccount` and `discoverTiendaNubeStore`, and over explicit
storage states for the `MemStorage` operations and the route handlers.
Timestamps are modelled as natural numbers supplied by the caller.
-/

/-! ## JavaScript string primitives, over `List Char` -/

/-- JS whitespace test used by `trim` and `split(/\s+/)` (ASCII subset). -/
def jsWs (c : Char) : Bool := c = ' ' || c = '\t' || c = '\n' || c = '\r'

/-- JS `String.prototype.trim`. -/
def trimChars (l : List Char) : List Char :=
  ((l.dropWhile jsWs).reverse.dropWhile jsWs).reverse

/-- JS `String.prototype.split` with a one-character separator:
`"a::b".split(':') = ["a","","b"]`, `"".split(':') = [""]`. -/
def jsSplitChar (sep : Char) : List Char → List (List Char)
  | [] => [[]]
  | c :: cs =>
    if c = sep then [] :: jsSplitChar sep cs
    else
      match jsSplitChar sep cs with
      | t :: ts => (c :: t) :: ts
      | [] => [[c]]

/-- Substring search used for JS `String.prototype.includes(sub)`. -/
def hasSub (sub : List Char) : List Char → Bool
  | [] => sub == []
  | c :: cs => sub.isPrefixOf (c :: cs) || hasSub sub cs

/-- JS `s.includes(sub)` on character lists. -/
def jsIncl (s sub : List Char) : Bool := hasSub sub s

/-- JS `s.includes(sub)` on strings. -/
def jsIncludes (s sub : String) : Bool := jsIncl s.toList sub.toList

/-- Case-insensitive character match for a lowercase-or-symbol pattern
character `l` (the `i` regex flag): `c` matches if it equals `l` or is the
uppercase form of `l`. -/
def charCI (l c : Char) : Bool :=
  l == c || ('A' ≤ c && c ≤ 'Z' && c.toNat + 32 == l.toNat)

/-- Case-insensitive literal-prefix test (`litCI lit s`). -/
def litCI : List Char → List Char → Bool
  | [], _ => true
  | _ :: _, [] => false
  | l :: ls, c :: cs => charCI l c && litCI ls cs

/-! ## The Tienda Nube URL regular expression

`/https?:\/\/[a-zA-Z0-9-]+\.(mitiendanube\.com|nuvemshop\.com\.br|nuvemshop\.com\.ar|nuvemshop\.com\.mx|nuvemshop\.com\.co)/gi`
-/

/-- Characters admitted by the `[a-zA-Z0-9-]` subdomain class. -/
def subChar (c : Char) : Bool := c.isAlpha || c.isDigit || c = '-'

/-- The domain alternatives of the URL regex, in alternation order. -/
def domainAltsCL : List (List Char) :=
  ["mitiendanube.com", "nuvemshop.com.br", "nuvemshop.com.ar",
   "nuvemshop.com.mx", "nuvemshop.com.co"].map String.toList

/-- Length of the URL-regex match starting exactly at the head of `s`,
if any.  Mirrors the backtracking semantics: the greedy subdomain run can
only be followed by `'.'` (which is outside the class), so the maximal run
is the only candidate; the alternation is tried left to right. -/
def urlMatchLen (s : List Char) : Option Nat :=
  if litCI ("http".toList) s then
    let afterHttp := s.drop 4
    let sLen : Nat :=
      match afterHttp with
      | c :: _ => if charCI 's' c then 1 else 0
      | [] => 0
    let afterS := afterHttp.drop sLen
    if litCI ("://".toList) afterS then
      let afterSep := afterS.drop 3
      let run := afterSep.takeWhile subChar
      if run = [] then none
      else
        match afterSep.drop run.length with
        | '.' :: tl =>
          match domainAltsCL.find? (fun alt => litCI alt tl) with
          | some alt => some (4 + sLen + 3 + run.length + 1 + alt.length)
          | none => none
        | _ => none
    else none
  else none

/-- Fuel-driven worker for `urlScan`; the fuel dominates the list length, so
the zero-fuel case is unreachable. -/
def urlScanGo : Nat → List Char → List (List Char) × List Char
  | 0, l => ([], l)
  | _ + 1, [] => ([], [])
  | fuel + 1, c :: cs =>
    match urlMatchLen (c :: cs) with
    | some n =>
      let r := urlScanGo fuel (cs.drop (n - 1))
      ((c :: cs.take (n - 1)) :: r.1, r.2)
    | none =>
      let r := urlScanGo fuel cs
      (r.1, c :: r.2)

/-- Global scan of the URL regex over a line: returns the list of matches in
order together with the unmatched remainder (the result of
`line.replace(regex, '')`).  Mirrors `String.prototype.match` with the `g`
flag: leftmost match first, search resumes after each match. -/
def urlScan (l : List Char) : List (List Char) × List Char :=
  urlScanGo l.length l

/-- Source line: `urlMatches[0].replace(/\/$/, '')`. -/
def stripTrailingSlash (m : List Char) : List Char :=
  match m.reverse with
  | '/' :: rest => rest.reverse
  | _ => m

/-! ## The email regular expression

`/[a-zA-Z0-9._%+-]+@[a-zA-Z0-9.-]+\.[a-zA-Z]{2,}/` (first match). -/

/-- The `[a-zA-Z0-9._%+-]` local-part class. -/
def localChar (c : Char) : Bool :=
  c.isAlpha || c.isDigit || c = '.' || c = '_' || c = '%' || c = '+' || c = '-'

/-- The `[a-zA-Z0-9.-]` domain class. -/
def domChar (c : Char) : Bool := c.isAlpha || c.isDigit || c = '.' || c = '-'

/-- Try to place `\.[a-zA-Z]{2,}` after `k` characters consumed by the greedy
domain run; returns the domain-segment length on success. -/
def tryDot (rest : List Char) (k : Nat) : Option Nat :=
  match rest.drop k with
  | '.' :: tl =>
    let a := tl.takeWhile Char.isAlpha
    if 2 ≤ a.length then some (k + 1 + a.length) else none
  | _ => none

/-- Backtracking search for the split point of `[a-zA-Z0-9.-]+\.[a-zA-Z]{2,}`:
tries the largest consumption first, as a greedy `+` does. -/
def searchDot (rest : List Char) : Nat → Option Nat
  | 0 => none
  | j + 1 =>
    match tryDot rest (j + 1) with
    | some n => some n
    | none => searchDot rest j

/-- Length of the email-regex match starting exactly at the head of `s`. -/
def emailMatchAt (s : List Char) : Option Nat :=
  let loc := s.takeWhile localChar
  if loc = [] then none
  else
    match s.drop loc.length with
    | '@' :: rest =>
      let dlen := (rest.takeWhile domChar).length
      match searchDot rest (dlen - 1) with
      | some n => some (loc.length + 1 + n)
      | none => none
    | _ => none

/-- First (leftmost) email-regex match in a line, as the matched text. -/
def emailScan : List Char → Option (List Char)
  | [] => none
  | c :: cs =>
    match emailMatchAt (c :: cs) with
    | some n => some ((c :: cs).take n)
    | none => emailScan cs

/-- Remove the first occurrence of `pat` from `s`
(JS `s.replace(pat, '')` with a plain-string pattern). -/
def removeFirst (pat : List Char) : List Char → List Char
  | [] => []
  | c :: cs =>
    if pat.isPrefixOf (c :: cs) then (c :: cs).drop pat.length
    else c :: removeFirst pat cs

/-- First whitespace-delimited token of an already-trimmed string
(`s.trim().split(/\s+/)[0] || ''`). -/
def firstTok (l : List Char) : List Char := l.takeWhile (fun c => !jsWs c)

/-! ## `parseAccountFile` -/

/-- One record produced by the parser. -/
structure ParsedAccount where
  email : String
  password : String
  storeUrl : Option String
deriving DecidableEq, Repr

/-- The separator priority list `[':', '|', ' ', ',', '\t']`. -/
def separators : List Char := [':', '|', ' ', ',', '\t']

def httpLit : List Char := "http".toList
def dotComLit : List Char := ".com".toList

/-- Source line: `cleanLine.split(sep).map(p => p.trim()).filter(p => p)`. -/
def splitParts (cl : List Char) (sep : Char) : List (List Char) :=
  ((jsSplitChar sep cl).map trimChars).filter (fun p => p ≠ [])

/-- The body executed when a separator yields at least two non-empty parts:
pick the part containing `'@'` as the email and, among the remaining parts,
the first that is neither the email nor URL-shaped as the password. -/
def extractFrom (cl : List Char) (sep : Char) : List Char × List Char :=
  let parts := splitParts cl sep
  match parts.find? (fun p => p.contains '@') with
  | some e =>
    (e,
      match parts.find? (fun p => p != e && !(jsIncl p httpLit) && !(jsIncl p dotComLit)) with
      | some pw => pw
      | none => [])
  | none => ([], [])

/-- The separator loop of `parseAccountFile`: the `break` sits inside the
`parts.length >= 2` test, so a separator that is present but yields fewer
than two non-empty parts is skipped and the next separator is tried. -/
def sepScan : List Char → List Char → List Char × List Char
  | [], _ => ([], [])
  | sep :: rest, cl =>
    if cl.contains sep then
      if 2 ≤ (splitParts cl sep).length then extractFrom cl sep
      else sepScan rest cl
    else sepScan rest cl

/-- The final guard and record construction:
`if (email && password && email.includes('@'))`. -/
def mkRecord (email password storeUrl : List Char) : Option ParsedAccount :=
  if email ≠ [] ∧ password ≠ [] ∧ '@' ∈ email then
    some ⟨String.mk email, String.mk password,
          if storeUrl ≠ [] then some (String.mk storeUrl) else none⟩
  else none

/-- Per-line parsing: URL extraction and stripping, the separator loop,
the email-regex fallback, and the final guard. -/
def parseLine (line : List Char) : Option ParsedAccount :=
  let scanned := urlScan line
  let storeUrl : List Char :=
    match scanned.1 with
    | [] => []
    | m :: _ => stripTrailingSlash m
  let cleanLine := trimChars scanned.2
  let sp := sepScan separators cleanLine
  let ep : List Char × List Char :=
    if sp.1 = [] ∨ sp.2 = [] then
      match emailScan cleanLine with
      | some m => (m, firstTok (trimChars (removeFirst m cleanLine)))
      | none => sp
    else sp
  mkRecord ep.1 ep.2 storeUrl

/-- Source line: `content.split('\n').filter(line => line.trim())`. -/
def nonBlankLines (content : String) : List (List Char) :=
  (jsSplitChar '\n' content.toList).filter (fun l => trimChars l ≠ [])

/-- The function `parseAccountFile`, one optional record per non-blank line. -/
def parseAccountFile (content : String) : List ParsedAccount :=
  (nonBlankLines content).filterMap parseLine

/-! ## Data model (from `shared/schema.ts` and `MemStorage`) -/

/-- Account status values: `pending, valid, invalid, error`. -/
inductive AccountStatus where
  | pending
  | valid
  | invalid
  | error
deriving DecidableEq, Repr

/-- Job status values: `idle, running, paused, stopped` plus the
`completed` value written by the scheduler. -/
inductive JobStatus where
  | idle
  | running
  | paused
  | stopped
  | completed
deriving DecidableEq, Repr

/-- An account row.  Timestamps are naturals; `null` columns are `Option`. -/
structure Account where
  id : Nat
  fileId : Option Nat
  email : String
  password : String
  storeUrl : Option String
  status : AccountStatus
  errorMessage : Option String
  validatedAt : Option Nat
deriving DecidableEq, Repr

/-- A validation-job row.  The JSON `settings` column carries no behaviour
that any claim depends on and is elided. -/
structure ValidationJob where
  id : Nat
  status : JobStatus
  totalAccounts : Nat
  processedAccounts : Nat
  validAccounts : Nat
  invalidAccounts : Nat
  errorAccounts : Nat
  startedAt : Option Nat
  pausedAt : Option Nat
  completedAt : Option Nat
deriving DecidableEq, Repr

/-- The `MemStorage` maps, in insertion order, with the id counters. -/
structure StorageState where
  accounts : List Account
  jobs : List ValidationJob
  currentAccountId : Nat
  currentJobId : Nat
deriving DecidableEq, Repr

/-- JS `x || old` for an optional string argument over a nullable stored
field: an absent or empty argument keeps the stored value. -/
def jsOrElse (x old : Option String) : Option String :=
  match x with
  | none => old
  | some s => if s = "" then old else some s

/-- The per-account function inside `MemStorage.updateAccountStatus`. -/
def applyStatusUpdate (now : Nat) (id : Nat) (st : AccountStatus)
    (storeUrl errMsg : Option String) (a : Account) : Account :=
  if a.id = id then
    { a with
      status := st
      storeUrl := jsOrElse storeUrl a.storeUrl
      errorMessage := jsOrElse errMsg a.errorMessage
      validatedAt := some now }
  else a

/-- Storage operation `MemStorage.updateAccountStatus`. -/
def updateAccountStatus (now : Nat) (s : StorageState) (id : Nat)
    (st : AccountStatus) (storeUrl errMsg : Option String) : StorageState :=
  { s with accounts := s.accounts.map (applyStatusUpdate now id st storeUrl errMsg) }

/-- The per-job update of `MemStorage.updateJobStatus`, including its
timestamp side effects. -/
def setJobStatus (now : Nat) (st : JobStatus) (j : ValidationJob) : ValidationJob :=
  let j1 := { j with status := st }
  match st with
  | .running => { j1 with startedAt := some now, pausedAt := none }
  | .paused => { j1 with pausedAt := some now }
  | .stopped => { j1 with completedAt := some now }
  | .completed => { j1 with completedAt := some now }
  | .idle => j1

/-- Storage operation `MemStorage.updateJobStatus`. -/
def updateJobStatus (now : Nat) (s : StorageState) (id : Nat) (st : JobStatus) :
    StorageState :=
  { s with jobs := s.jobs.map (fun j => if j.id = id then setJobStatus now st j else j) }

/-- Storage operation `MemStorage.updateJobProgress`. -/
def updateJobProgress (s : StorageState) (id : Nat)
    (processed valid invalid errors : Nat) : StorageState :=
  { s with jobs := s.jobs.map (fun j =>
      if j.id = id then
        { j with
          processedAccounts := processed
          validAccounts := valid
          invalidAccounts := invalid
          errorAccounts := errors }
      else j) }

/-- Storage operation `MemStorage.getCurrentJob`: the unique `running`/`paused` job, or the
most recently created job. -/
def getCurrentJob (s : StorageState) : Option ValidationJob :=
  match s.jobs.find? (fun j => j.status = .running ∨ j.status = .paused) with
  | some j => some j
  | none => s.jobs.getLast?

/-- Status of the current job, if any. -/
def statusOfCurrent (s : StorageState) : Option JobStatus :=
  (getCurrentJob s).map (fun j => j.status)

/-! ## Network environment and the prober -/

/-- An HTTP response as the prober observes it: status code, `Location`
header (defaulted to `""`), response text. -/
structure HttpResponse where
  status : Nat
  location : String
  body : String
deriving DecidableEq, Repr

/-- Fetch `Response.ok`: status in `[200, 300)`. -/
def respOk (r : HttpResponse) : Bool := 200 ≤ r.status && r.status < 300

/-- Outcome of one outbound `fetch`: a response, or a thrown
network/transport failure carrying its message. -/
inductive FetchOutcome where
  | ok (r : HttpResponse)
  | exn (msg : String)
deriving DecidableEq, Repr

/-- The network as seen by one record's attempt: the discovery `HEAD` probe,
the login-page `GET`, and the login `POST`, each keyed by the request URL.
The form body (including any CSRF token recovered from the login page) only
influences which response the environment returns, so the token-extraction
regex chain has no further observable effect and is not modelled. -/
structure NetworkEnv where
  probe : String → FetchOutcome
  loginPage : String → FetchOutcome
  login : String → FetchOutcome

/-- Result record of `validateTiendaNubeAccount`. -/
structure ValidationResult where
  valid : Bool
  storeUrl : Option String
  error : Option String
deriving DecidableEq, Repr

/-- Result record of `discoverTiendaNubeStore`. -/
structure DiscoveryResult where
  success : Bool
  storeUrl : Option String
  error : Option String
deriving DecidableEq, Repr

/-- Source line: `email.split('@')[0]`. -/
def localPart (email : String) : String :=
  String.mk (email.toList.takeWhile (fun c => c ≠ '@'))

/-- The candidate hosting-domain suffixes, in probe order. -/
def commonDomains : List String :=
  [".mitiendanube.com", ".nuvemshop.com.br", ".nuvemshop.com.ar",
   ".nuvemshop.com.mx", ".nuvemshop.com.co"]

/-- The candidate loop of `discoverTiendaNubeStore`: a response with status
exactly 200 wins; any other response or a thrown failure moves on. -/
def discoverGo (probe : String → FetchOutcome) (username : String) :
    List String → DiscoveryResult
  | [] => ⟨false, none, some "Tienda no encontrada"⟩
  | d :: ds =>
    match probe ("https://" ++ username ++ d) with
    | .ok r =>
      if r.status = 200 then ⟨true, some ("https://" ++ username ++ d), none⟩
      else discoverGo probe username ds
    | .exn _ => discoverGo probe username ds

/-- The resolver `discoverTiendaNubeStore`. -/
def discoverTiendaNubeStore (probe : String → FetchOutcome) (email : String) :
    DiscoveryResult :=
  discoverGo probe (localPart email) commonDomains

/-- The textual markers accepted as proof of an authenticated session. -/
def successMarkers : List String :=
  ["dashboard", "admin-panel", "Cerrar sesión", "Log out", "Mi tienda", "Panel de control"]

/-- The textual markers treated as an explicit credential rejection. -/
def failureMarkers : List String :=
  ["contraseña incorrecta", "invalid", "error", "incorrecto"]

/-- The redirect-acceptance test of `validateTiendaNubeAccount`:
301/302 with a `Location` containing `/admin` and at least one of
`dashboard`/`home`/`panel`, or no `login`. -/
def redirectAccept (status : Nat) (location : String) : Bool :=
  (status == 302 || status == 301) &&
  (jsIncludes location "/admin" &&
    (jsIncludes location "dashboard" || jsIncludes location "home" ||
     jsIncludes location "panel" || !(jsIncludes location "login")))

/-- Classification of the login `POST` response, in source order: redirect
check, body success markers, body failure markers, generic rejection. -/
def classifyLogin (body location : String) (status : Nat) (storeUrl : String) :
    ValidationResult :=
  if redirectAccept status location then ⟨true, some storeUrl, none⟩
  else if successMarkers.any (fun m => jsIncludes body m) then ⟨true, some storeUrl, none⟩
  else if failureMarkers.any (fun m => jsIncludes body m) then
    ⟨false, none, some "Credenciales incorrectas"⟩
  else ⟨false, none, some "No se pudo verificar el acceso al dashboard"⟩

/-- The two sequential requests of `validateTiendaNubeAccount` once a store
URL is in hand: fetch `storeUrl + "/admin/login"`, then `POST` the form to
the same URL and classify.  A thrown failure in either request is caught by
the surrounding `try/catch`, which returns `valid: false` carrying
`"Error de conexión: "` plus the transport message; a non-ok login page is
rejected with its own message. -/
def proberWithUrl (env : NetworkEnv) (storeUrl : String) : ValidationResult :=
  match env.loginPage (storeUrl ++ "/admin/login") with
  | .exn msg => ⟨false, none, some ("Error de conexión: " ++ msg)⟩
  | .ok pr =>
    if !respOk pr then ⟨false, none, some "No se pudo acceder a la página de login"⟩
    else
      match env.login (storeUrl ++ "/admin/login") with
      | .exn msg => ⟨false, none, some ("Error de conexión: " ++ msg)⟩
      | .ok lr => classifyLogin lr.body lr.location lr.status storeUrl

/-- The prober `validateTiendaNubeAccount`: when no store URL is given, discover one
first and fail with the no-store message if discovery fails; then perform
the two-request probe. -/
def validateTiendaNubeAccount (env : NetworkEnv) (email password : String)
    (storeUrl0 : Option String) : ValidationResult :=
  match storeUrl0 with
  | some u => proberWithUrl env u
  | none =>
    let d := discoverTiendaNubeStore env.probe email
    if d.success then proberWithUrl env (d.storeUrl.getD "")
    else ⟨false, none, some "No se encontró tienda asociada al email"⟩

/-! ## The batch scheduler and the route handlers -/

/-- One entry of the in-process validation queue. -/
structure QueueItem where
  id : Nat
  email : String
  password : String
deriving DecidableEq, Repr

/-- Storage plus the module-level mutable queue. -/
structure SysState where
  storage : StorageState
  queue : List QueueItem
deriving DecidableEq, Repr

/-- A route handler's observable verdict: success, or an HTTP 400 rejection. -/
inductive CtrlResp where
  | ok
  | rejected
deriving DecidableEq, Repr

/-- How `processValidationQueue` writes one record's outcome back:
a valid result stores `valid` with the store URL, anything else stores
`invalid` with the result's error message. -/
def recordOutcome (now : Nat) (s : StorageState) (id : Nat)
    (result : ValidationResult) : StorageState :=
  if result.valid then updateAccountStatus now s id .valid result.storeUrl none
  else updateAccountStatus now s id .invalid none result.error

/-- Source line: `allAccounts.filter(a => a.status !== "pending").length`. -/
def countProcessed (l : List Account) : Nat :=
  (l.filter (fun a => a.status ≠ .pending)).length

/-- Source line: `allAccounts.filter(a => a.status === "valid").length`. -/
def countValid (l : List Account) : Nat :=
  (l.filter (fun a => a.status = .valid)).length

/-- Source line: `allAccounts.filter(a => a.status === "invalid").length`. -/
def countInvalid (l : List Account) : Nat :=
  (l.filter (fun a => a.status = .invalid)).length

/-- Source line: `allAccounts.filter(a => a.status === "error").length`. -/
def countError (l : List Account) : Nat :=
  (l.filter (fun a => a.status = .error)).length

/-- Source line: `accounts.filter(a => a.status === 'pending').length`. -/
def countPending (l : List Account) : Nat :=
  (l.filter (fun a => a.status = .pending)).length

/-- The progress fold after a batch: recompute the four counters from the
whole account table and store them on the job. -/
def foldProgress (s : StorageState) (jobId : Nat) : StorageState :=
  updateJobProgress s jobId (countProcessed s.accounts) (countValid s.accounts)
    (countInvalid s.accounts) (countError s.accounts)

/-- The tail of a drain cycle (after the batch finished and progress was
folded): re-read the current job; if it is `running` and the queue is
non-empty, schedule the next cycle (no storage change here); otherwise, if
the queue is empty and a current job exists, mark that job `completed`. -/
def drainTail (now : Nat) (sys : SysState) : SysState :=
  match getCurrentJob sys.storage with
  | some j =>
    if j.status = .running ∧ sys.queue ≠ [] then sys
    else if sys.queue = [] then
      { sys with storage := updateJobStatus now sys.storage j.id .completed }
    else sys
  | none => sys

/-- Route `POST /api/validation/start`: rejected only when no pending accounts
exist; otherwise creates a job over the pending snapshot, marks it running,
and seeds the queue.  (Settings parsing is orthogonal to every claim and is
elided.) -/
def startValidation (now : Nat) (sys : SysState) : SysState × CtrlResp :=
  let pendingAccounts := sys.storage.accounts.filter (fun a => a.status = .pending)
  if pendingAccounts.length = 0 then (sys, .rejected)
  else
    let job : ValidationJob :=
      ⟨sys.storage.currentJobId, .running, pendingAccounts.length, 0, 0, 0, 0, none, none, none⟩
    let s1 : StorageState :=
      { sys.storage with
        jobs := sys.storage.jobs ++ [job]
        currentJobId := sys.storage.currentJobId + 1 }
    let s2 := updateJobStatus now s1 job.id .running
    ({ storage := s2
       queue := pendingAccounts.map (fun a => ⟨a.id, a.email, a.password⟩) }, .ok)

/-- Route `POST /api/validation/pause`. -/
def pauseValidation (now : Nat) (sys : SysState) : SysState × CtrlResp :=
  match getCurrentJob sys.storage with
  | some j =>
    if j.status = .running then
      ({ sys with storage := updateJobStatus now sys.storage j.id .paused }, .ok)
    else (sys, .rejected)
  | none => (sys, .rejected)

/-- Route `POST /api/validation/resume`. -/
def resumeValidation (now : Nat) (sys : SysState) : SysState × CtrlResp :=
  match getCurrentJob sys.storage with
  | some j =>
    if j.status = .paused then
      ({ sys with storage := updateJobStatus now sys.storage j.id .running }, .ok)
    else (sys, .rejected)
  | none => (sys, .rejected)

/-- Route `POST /api/validation/stop`: empties the queue as well. -/
def stopValidation (now : Nat) (sys : SysState) : SysState × CtrlResp :=
  match getCurrentJob sys.storage with
  | some j =>
    if j.status = .running ∨ j.status = .paused then
      ({ storage := updateJobStatus now sys.storage j.id .stopped, queue := [] }, .ok)
    else (sys, .rejected)
  | none => (sys, .rejected)

/-- One recorded status-update operation, for iterating
`updateAccountStatus` over a run. -/
structure UpdOp where
  now : Nat
  id : Nat
  status : AccountStatus
  storeUrl : Option String
  errMsg : Option String

/-- Apply a sequence of account status updates. -/
def applyUpdates (ops : List UpdOp) (s : StorageState) : StorageState :=
  ops.foldl (fun st op => updateAccountStatus op.now st op.id op.status op.storeUrl op.errMsg) s

/-- Status of the job with the given id, if present. -/
def getJobStatus (sys : SysState) (id : Nat) : Option JobStatus :=
  (sys.storage.jobs.find? (fun j => j.id = id)).map (fun j => j.status)

/-! ## Spec-side comparison definitions -/

/-- The separator stage as the claim words it (C6): the first separator
PRESENT in the line is the one used, with no second chance for a later
separator when the split leaves fewer than two non-empty pieces. -/
def sepStageClaim (cl : List Char) : List Char × List Char :=
  match separators.find? (fun sep => cl.contains sep) with
  | some sep =>
    if 2 ≤ (splitParts cl sep).length then extractFrom cl sep else ([], [])
  | none => ([], [])

/-- The separator stage as amended: the first separator that is present AND
whose split yields at least two non-empty pieces is the one used. -/
def sepStageAmendedSpec (cl : List Char) : List Char × List Char :=
  match separators.find? (fun sep => cl.contains sep && decide (2 ≤ (splitParts cl sep).length)) with
  | some sep => extractFrom cl sep
  | none => ([], [])

/-- The location predicate exactly as claim C7 states it: contains the
admin-area marker and does not contain the login marker. -/
def locationClaimC7 (location : String) : Bool :=
  jsIncludes location "/admin" && !(jsIncludes location "login")

/-- The predicate "this probe outcome is not a success": no response with status exactly
200.  The discovery loop moves past such a candidate. -/
def probeNoSuccess : FetchOutcome → Prop
  | .ok r => r.status ≠ 200
  | .exn _ => True

/-- The job literal created by `startValidation` over a system state. -/
def newJobAt (sys : SysState) : ValidationJob :=
  ⟨sys.storage.currentJobId, .running,
   (sys.storage.accounts.filter (fun a => a.status = .pending)).length,
   0, 0, 0, 0, none, none, none⟩

/-! ## Concrete scenario states -/

/-- A network on which the login-page `GET` throws a timeout. -/
def c1Env : NetworkEnv :=
  ⟨fun _ => .exn "x", fun _ => .exn "timeout", fun _ => .exn "x"⟩

def c1Acct : Account := ⟨1, none, "a@b.com", "pw", none, .pending, none, none⟩

def c1State : StorageState := ⟨[c1Acct], [], 2, 1⟩

def c2Job : ValidationJob := ⟨1, .running, 3, 0, 0, 0, 0, some 0, none, none⟩

def c2Acct : Account := ⟨1, none, "c@d.com", "pw", none, .pending, none, none⟩

/-- A system with one `running` job and one `pending` account. -/
def c2Sys : SysState := ⟨⟨[c2Acct], [c2Job], 2, 2⟩, []⟩

def c3Job : ValidationJob := ⟨1, .running, 5, 2, 1, 1, 0, some 0, none, none⟩

/-- A system with one `running` job and one queued record (an in-flight
batch is about to finish). -/
def c3Sys : SysState := ⟨⟨[], [c3Job], 1, 2⟩, [⟨7, "a@b.c", "p"⟩]⟩

def c4A1 : Account := ⟨1, none, "a@x.com", "p1", none, .valid, none, some 0⟩

def c4A2 : Account := ⟨2, none, "b@x.com", "p2", none, .pending, none, none⟩

/-- One account already `valid` from an earlier run, one `pending`. -/
def c4Sys : SysState := ⟨⟨[c4A1, c4A2], [], 3, 1⟩, []⟩

/-- After starting a job over the single pending account (total = 1). -/
def c4Sys1 : SysState := (startValidation 10 c4Sys).1

/-- After the batch validates the pending account. -/
def c4S2 : StorageState := updateAccountStatus 11 c4Sys1.storage 2 .valid none none

/-- After the scheduler folds progress from the whole account table. -/
def c4S3 : StorageState := foldProgress c4S2 1

def c4wAcct : Account := ⟨4, none, "w@y.com", "pw", none, .pending, none, none⟩

/-- A witness state whose accounts are all pending. -/
def c4wSys : SysState := ⟨⟨[c4wAcct], [], 5, 1⟩, []⟩

/-- A network on which every request throws. -/
def c8Env : NetworkEnv :=
  ⟨fun _ => .exn "nf", fun _ => .exn "nf", fun _ => .exn "nf"⟩

def c8St : StorageState :=
  ⟨[⟨1, none, "user@x.com", "pw", none, .pending, none, none⟩], [], 2, 1⟩

/-- A system whose only job is `stopped` (so the current job is neither
running nor paused). -/
def c9Sys : SysState :=
  ⟨⟨[], [⟨1, .stopped, 3, 3, 1, 1, 1, some 0, none, some 2⟩], 1, 2⟩, []⟩

def c10Acct : Account :=
  ⟨3, some 1, "w@x.com", "pw", some "https://w.mitiendanube.com", .pending, some "old", none⟩

def c10State : StorageState := ⟨[c10Acct], [], 4, 1⟩

/-! ## Helper lemmas -/

/-- A record can only come out of `mkRecord` with a non-empty email
containing `'@'` and a non-empty password. -/
theorem mkRecord_sound (e pw u : List Char) (r : ParsedAccount)
    (h : mkRecord e pw u = some r) :
    r.email ≠ "" ∧ '@' ∈ r.email.data ∧ r.password ≠ "" := by
  unfold mkRecord at h
  split at h
  · rename_i hc
    obtain ⟨he, hpw, hat⟩ := hc
    injection h with h
    subst h
    refine ⟨fun hcontra => he ?_, hat, fun hcontra => hpw ?_⟩
    · exact congrArg String.data hcontra
    · exact congrArg String.data hcontra
  · cases h

/-- The separator loop is a `find?` over the conjunction
"present and at least two non-empty parts". -/
theorem sepScan_eq_find (seps : List Char) (cl : List Char) :
    sepScan seps cl =
      match seps.find? (fun sep => cl.contains sep && decide (2 ≤ (splitParts cl sep).length)) with
      | some sep => extractFrom cl sep
      | none => ([], []) := by
  induction seps with
  | nil => rfl
  | cons sep rest ih =>
    simp only [sepScan]
    by_cases h1 : cl.contains sep = true
    · by_cases h2 : 2 ≤ (splitParts cl sep).length
      · have hp : (cl.contains sep && decide (2 ≤ (splitParts cl sep).length)) = true := by
          rw [h1, decide_eq_true h2]
          rfl
        rw [if_pos h1, if_pos h2,
          @List.find?_cons_of_pos _ (fun s => cl.contains s && decide (2 ≤ (splitParts cl s).length)) sep rest hp]
      · have hp : ¬(cl.contains sep && decide (2 ≤ (splitParts cl sep).length)) = true := by
          rw [Bool.and_eq_true]
          rintro ⟨-, hd⟩
          exact h2 (of_decide_eq_true hd)
        rw [if_pos h1, if_neg h2,
          @List.find?_cons_of_neg _ (fun s => cl.contains s && decide (2 ≤ (splitParts cl s).length)) sep rest hp, ih]
    · have hp : ¬(cl.contains sep && decide (2 ≤ (splitParts cl sep).length)) = true := by
        rw [Bool.and_eq_true]
        rintro ⟨hc, -⟩
        exact h1 hc
      rw [if_neg h1,
        @List.find?_cons_of_neg _ (fun s => cl.contains s && decide (2 ≤ (splitParts cl s).length)) sep rest hp, ih]

/-- Classification `classifyLogin` accepts exactly when the redirect test or a body
success-marker fires. -/
theorem classifyLogin_valid (body location : String) (status : Nat) (u : String) :
    (classifyLogin body location status u).valid =
      (redirectAccept status location || successMarkers.any (fun m => jsIncludes body m)) := by
  unfold classifyLogin
  by_cases h1 : redirectAccept status location = true
  · simp [h1]
  · by_cases h2 : successMarkers.any (fun m => jsIncludes body m) = true
    · simp [h1, h2]
    · by_cases h3 : failureMarkers.any (fun m => jsIncludes body m) = true <;>
        simp [h1, h2, h3]

/-! ## C5 -/

/-- C5: every record the parser returns has a non-empty identifier containing
`@` and a non-empty secret; at most one record arises per non-blank line (in
source line order, by construction as a `filterMap`); the input
`"user@store.com:secret123"` yields exactly the record
`{identifier: "user@store.com", secret: "secret123"}` and the input
`"not a valid line"` yields no record. -/
theorem c5_parser_record_soundness :
    (∀ (content : String) (r : ParsedAccount), r ∈ parseAccountFile content →
       r.email ≠ "" ∧ '@' ∈ r.email.data ∧ r.password ≠ "") ∧
    (∀ content : String,
       (parseAccountFile content).length ≤ (nonBlankLines content).length) ∧
    parseAccountFile "user@store.com:secret123" =
      [⟨"user@store.com", "secret123", none⟩] ∧
    parseAccountFile "not a valid line" = [] := by
  refine ⟨?_, ?_, by decide, by decide⟩
  · intro content r hr
    obtain ⟨line, _, hparse⟩ := List.mem_filterMap.mp hr
    exact mkRecord_sound _ _ _ r hparse
  · intro content
    exact List.length_filterMap_le _ _

/-- Witness for C5 at a concrete input. -/
theorem c5_parser_record_soundness_witness :
    ("user@store.com" : String) ≠ "" ∧
    '@' ∈ ("user@store.com" : String).data ∧
    ("secret123" : String) ≠ "" :=
  c5_parser_record_soundness.1 "user@store.com:secret123"
    ⟨"user@store.com", "secret123", none⟩ (by decide)

/-! ## C6 -/

/-- C6 counterexample: on the line `":user@x.com|pw"` the first separator
present is `':'`, whose split yields a single non-empty piece; the code then
moves on to `'|'` and extracts a record, while the claim's
first-present-separator reading extracts nothing. -/
theorem c6_counterexample :
    sepScan separators ":user@x.com|pw".toList ≠ sepStageClaim ":user@x.com|pw".toList ∧
    sepScan separators ":user@x.com|pw".toList = (":user@x.com".toList, "pw".toList) ∧
    sepStageClaim ":user@x.com|pw".toList = ([], []) ∧
    parseLine ":user@x.com|pw".toList = some ⟨":user@x.com", "pw", none⟩ := by
  decide

/-- C6 as amended: the parser uses the first separator in the priority order
`:`, `|`, space, comma, tab that is present AND whose split (trim, discard
empties) yields at least two non-empty pieces — a present separator whose
split yields fewer than two pieces is skipped; a single separator is used,
never a combination. -/
theorem c6_amended_first_viable_separator :
    ∀ cl : List Char, sepScan separators cl = sepStageAmendedSpec cl := by
  intro cl
  rw [sepScan_eq_find]
  rfl

/-! ## C7 -/

/-- C7 counterexample: a 302 whose `Location` is `"/admin/dashboard/login"`
contains a login marker, so the claim says it is not accepted; the code
accepts it because `dashboard` is present. -/
theorem c7_counterexample :
    (classifyLogin "" "/admin/dashboard/login" 302 "https://u").valid = true ∧
    locationClaimC7 "/admin/dashboard/login" = false := by
  decide

/-- C7 as amended: on a 301/302 response whose body carries no
authenticated-session marker, the attempt is accepted exactly when the
`Location` contains `/admin` and (contains `dashboard`, `home` or `panel`,
or does not contain `login`). -/
theorem c7_amended_redirect_classification (body location : String) (status : Nat)
    (u : String) (hst : status = 301 ∨ status = 302)
    (hbody : ∀ m ∈ successMarkers, jsIncludes body m = false) :
    (classifyLogin body location status u).valid = true ↔
      (jsIncludes location "/admin" &&
        (jsIncludes location "dashboard" || jsIncludes location "home" ||
         jsIncludes location "panel" || !(jsIncludes location "login"))) = true := by
  rw [classifyLogin_valid]
  have hany : successMarkers.any (fun m => jsIncludes body m) = false := by
    rw [List.any_eq_false]
    intro m hm
    simp [hbody m hm]
  rw [hany]
  unfold redirectAccept
  rcases hst with h | h <;> subst h <;> simp

/-- Witness for C7 at a concrete response. -/
theorem c7_amended_redirect_classification_witness :
    (classifyLogin "" "/admin/home" 302 "https://u").valid = true ↔
      (jsIncludes "/admin/home" "/admin" &&
        (jsIncludes "/admin/home" "dashboard" || jsIncludes "/admin/home" "home" ||
         jsIncludes "/admin/home" "panel" || !(jsIncludes "/admin/home" "login"))) = true :=
  c7_amended_redirect_classification "" "/admin/home" 302 "https://u"
    (Or.inr rfl) (by decide)

/-- A transport-failure detail is never the empty string. -/
theorem errConn_ne_empty (msg : String) : "Error de conexión: " ++ msg ≠ "" := by
  intro h
  have hlen := congrArg String.length h
  rw [String.length_append] at hlen
  have h19 : ("Error de conexión: " : String).length = 19 := by decide
  have h0 : ("" : String).length = 0 := by decide
  rw [h19, h0] at hlen
  omega

/-- If no candidate domain probe returns a 200 response, the discovery loop
falls through to its not-found result. -/
theorem discoverGo_fail (probe : String → FetchOutcome) (username : String)
    (ds : List String)
    (h : ∀ d ∈ ds, probeNoSuccess (probe ("https://" ++ username ++ d))) :
    discoverGo probe username ds = ⟨false, none, some "Tienda no encontrada"⟩ := by
  induction ds with
  | nil => rfl
  | cons d ds ih =>
    have hd := h d (List.mem_cons_self d ds)
    have ih' := ih (fun x hx => h x (List.mem_cons_of_mem d hx))
    simp only [discoverGo]
    cases hp : probe ("https://" ++ username ++ d) with
    | ok r =>
      rw [hp] at hd
      simp only [hp]
      rw [if_neg hd]
      exact ih'
    | exn m =>
      simp only [hp]
      exact ih'

/-- Writing `x || old` keeps the stored value when the argument is absent. -/
theorem jsOrElse_none (old : Option String) : jsOrElse none old = old := rfl

/-- Writing `x || old` can only produce `null` when the stored value was `null`. -/
theorem jsOrElse_none_of (x old : Option String) (h : jsOrElse x old = none) :
    old = none := by
  cases x with
  | none => exact h
  | some s =>
    simp only [jsOrElse] at h
    by_cases hs : s = ""
    · rw [if_pos hs] at h
      exact h
    · rw [if_neg hs] at h
      cases h

/-! ## C1 -/

/-- C1 counterexample: a timeout thrown by the login-page request ends with
the record in status `invalid` — not `error` — though the transport message
is recorded as the failure detail. -/
theorem c1_counterexample :
    validateTiendaNubeAccount c1Env "a@b.com" "pw" (some "https://s.mitiendanube.com") =
      ⟨false, none, some "Error de conexión: timeout"⟩ ∧
    ((recordOutcome 7 c1State 1 (validateTiendaNubeAccount c1Env "a@b.com" "pw"
        (some "https://s.mitiendanube.com"))).accounts.map
      (fun a => (a.id, a.status, a.errorMessage))) =
      [(1, AccountStatus.invalid, some "Error de conexión: timeout")] ∧
    AccountStatus.invalid ≠ AccountStatus.error := by
  decide

/-- C1 as amended: a network/transport failure thrown during either outbound
request yields `valid: false` with detail `"Error de conexión: " ++ msg`, and
the queue processor therefore records the terminal status `invalid` — the
same status as a credential rejection, not the distinct `error` status —
with the transport message as the failure detail.  (`error` is written only
when the record's processing itself throws, e.g. a storage failure.) -/
theorem c1_amended_transport_failure_is_invalid (env : NetworkEnv)
    (e p u msg : String) (now : Nat) (s : StorageState) (a : Account)
    (ha : a ∈ s.accounts)
    (h : env.loginPage (u ++ "/admin/login") = .exn msg ∨
         ∃ pr, env.loginPage (u ++ "/admin/login") = .ok pr ∧ respOk pr = true ∧
           env.login (u ++ "/admin/login") = .exn msg) :
    validateTiendaNubeAccount env e p (some u) =
      ⟨false, none, some ("Error de conexión: " ++ msg)⟩ ∧
    ∃ a', a' ∈ (recordOutcome now s a.id
        (validateTiendaNubeAccount env e p (some u))).accounts ∧
      a'.id = a.id ∧ a'.status = .invalid ∧ a'.status ≠ .error ∧
      a'.errorMessage = some ("Error de conexión: " ++ msg) := by
  have hv : validateTiendaNubeAccount env e p (some u) =
      ⟨false, none, some ("Error de conexión: " ++ msg)⟩ := by
    show proberWithUrl env u = _
    unfold proberWithUrl
    rcases h with h | ⟨pr, h1, h2, h3⟩
    · simp only [h]
    · simp only [h1, h2, h3, Bool.not_true, Bool.false_eq_true, if_false]
  refine ⟨hv, applyStatusUpdate now a.id .invalid none
    (some ("Error de conexión: " ++ msg)) a, ?_, ?_, ?_, ?_, ?_⟩
  · rw [hv]
    exact List.mem_map_of_mem _ ha
  · simp [applyStatusUpdate]
  · simp [applyStatusUpdate]
  · simp [applyStatusUpdate]
  · simp [applyStatusUpdate, jsOrElse, errConn_ne_empty msg]

/-- Witness for C1 at a concrete environment and state. -/
theorem c1_amended_transport_failure_is_invalid_witness :
    validateTiendaNubeAccount c1Env "a@b.com" "pw" (some "https://s.mitiendanube.com") =
      ⟨false, none, some ("Error de conexión: " ++ "timeout")⟩ ∧
    ∃ a', a' ∈ (recordOutcome 7 c1State 1
        (validateTiendaNubeAccount c1Env "a@b.com" "pw"
          (some "https://s.mitiendanube.com"))).accounts ∧
      a'.id = 1 ∧ a'.status = .invalid ∧ a'.status ≠ .error ∧
      a'.errorMessage = some ("Error de conexión: " ++ "timeout") :=
  c1_amended_transport_failure_is_invalid c1Env "a@b.com" "pw"
    "https://s.mitiendanube.com" "timeout" 7 c1State c1Acct (by decide)
    (Or.inl rfl)

/-! ## C8 -/

/-- C8 counterexample: with every candidate probe throwing, the discovery
fails and the record's terminal status is `invalid` — the claim says it must
not be classified with the credential-invalid status. -/
theorem c8_counterexample :
    discoverTiendaNubeStore c8Env.probe "user@x.com" =
      ⟨false, none, some "Tienda no encontrada"⟩ ∧
    ((recordOutcome 5 c8St 1 (validateTiendaNubeAccount c8Env "user@x.com" "pw"
        none)).accounts.map (fun a => (a.id, a.status, a.errorMessage))) =
      [(1, AccountStatus.invalid, some "No se encontró tienda asociada al email")] := by
  decide

/-- C8 as amended: when the resolver exhausts all candidate endpoint domains
without a 200 response, the outcome carries the endpoint-undiscoverable
detail (`"No se encontró tienda asociada al email"`), but the record IS
classified with the same `invalid` status as a credential rejection — there
is no distinct record state for endpoint-undiscoverable. -/
theorem c8_amended_unresolved_endpoint_is_invalid (env : NetworkEnv)
    (e p : String) (now : Nat) (s : StorageState) (a : Account)
    (ha : a ∈ s.accounts)
    (h : ∀ d ∈ commonDomains, probeNoSuccess (env.probe ("https://" ++ localPart e ++ d))) :
    validateTiendaNubeAccount env e p none =
      ⟨false, none, some "No se encontró tienda asociada al email"⟩ ∧
    discoverTiendaNubeStore env.probe e = ⟨false, none, some "Tienda no encontrada"⟩ ∧
    ∃ a', a' ∈ (recordOutcome now s a.id
        (validateTiendaNubeAccount env e p none)).accounts ∧
      a'.id = a.id ∧ a'.status = .invalid ∧
      a'.errorMessage = some "No se encontró tienda asociada al email" := by
  have hdisc : discoverTiendaNubeStore env.probe e =
      ⟨false, none, some "Tienda no encontrada"⟩ :=
    discoverGo_fail env.probe (localPart e) commonDomains h
  have hv : validateTiendaNubeAccount env e p none =
      ⟨false, none, some "No se encontró tienda asociada al email"⟩ := by
    simp only [validateTiendaNubeAccount, hdisc]
    simp
  refine ⟨hv, hdisc, applyStatusUpdate now a.id .invalid none
    (some "No se encontró tienda asociada al email") a, ?_, ?_, ?_, ?_⟩
  · rw [hv]
    exact List.mem_map_of_mem _ ha
  · simp [applyStatusUpdate]
  · simp [applyStatusUpdate]
  · simp [applyStatusUpdate, jsOrElse]

/-- Witness for C8 at a concrete environment and state. -/
theorem c8_amended_unresolved_endpoint_is_invalid_witness :
    validateTiendaNubeAccount c8Env "user@x.com" "pw" none =
      ⟨false, none, some "No se encontró tienda asociada al email"⟩ ∧
    discoverTiendaNubeStore c8Env.probe "user@x.com" =
      ⟨false, none, some "Tienda no encontrada"⟩ ∧
    ∃ a', a' ∈ (recordOutcome 5 c8St 1
        (validateTiendaNubeAccount c8Env "user@x.com" "pw" none)).accounts ∧
      a'.id = 1 ∧ a'.status = .invalid ∧
      a'.errorMessage = some "No se encontró tienda asociada al email" :=
  c8_amended_unresolved_endpoint_is_invalid c8Env "user@x.com" "pw" 5 c8St
    ⟨1, none, "user@x.com", "pw", none, .pending, none, none⟩ (by decide)
    (by intro d hd; fin_cases hd <;> exact trivial)

/-- The four status counters partition every account list: non-pending
accounts are exactly the valid, invalid and error ones. -/
theorem counters_partition (l : List Account) :
    countProcessed l = countValid l + countInvalid l + countError l := by
  induction l with
  | nil => rfl
  | cons a t ih =>
    cases h : a.status
    all_goals simp [countProcessed, countValid, countInvalid, countError,
      List.filter_cons, h] at ih ⊢
    all_goals omega

/-- Account status updates never change the number of accounts. -/
theorem applyUpdates_length (ops : List UpdOp) (s : StorageState) :
    (applyUpdates ops s).accounts.length = s.accounts.length := by
  induction ops generalizing s with
  | nil => rfl
  | cons op t ih =>
    show (applyUpdates t (updateAccountStatus op.now s op.id op.status op.storeUrl op.errMsg)).accounts.length = _
    rw [ih]
    simp [updateAccountStatus]

/-! ## C2 -/

/-- C2 counterexample: with job 1 `running` and one `pending` account, a new
start request is accepted and a second `running` job is created — two jobs
are then simultaneously active. -/
theorem c2_counterexample :
    getJobStatus c2Sys 1 = some .running ∧
    (startValidation 5 c2Sys).2 = .ok ∧
    ((startValidation 5 c2Sys).1.storage.jobs.filter
       (fun j => j.status = .running ∨ j.status = .paused)).length = 2 := by
  decide

/-- C2 as amended: a start request is rejected exactly when no pending
account exists; whenever pending accounts exist the request is accepted and
a fresh `running` job is appended even while another job is `running` or
`paused` — so two active jobs can coexist. -/
theorem c2_amended_start_not_guarded_by_active_job :
    (∀ (now : Nat) (sys : SysState),
       (startValidation now sys).2 = .rejected ↔
         countPending sys.storage.accounts = 0) ∧
    (∀ (now : Nat) (sys : SysState) (j0 : ValidationJob),
       j0 ∈ sys.storage.jobs → (j0.status = .running ∨ j0.status = .paused) →
       j0.id ≠ sys.storage.currentJobId → countPending sys.storage.accounts ≠ 0 →
       (startValidation now sys).2 = .ok ∧
       ∃ j1 j2, j1 ∈ (startValidation now sys).1.storage.jobs ∧
         j2 ∈ (startValidation now sys).1.storage.jobs ∧ j1.id ≠ j2.id ∧
         (j1.status = .running ∨ j1.status = .paused) ∧ j2.status = .running) := by
  constructor
  · intro now sys
    simp only [startValidation]
    by_cases h : (sys.storage.accounts.filter (fun a => a.status = .pending)).length = 0
    · rw [if_pos h]
      simp [countPending, h]
    · rw [if_neg h]
      simp [countPending, h]
  · intro now sys j0 hj0 hact hid hpend
    have h : ¬(sys.storage.accounts.filter (fun a => a.status = .pending)).length = 0 := by
      simpa [countPending] using hpend
    simp only [startValidation]
    rw [if_neg h]
    refine ⟨rfl, j0, setJobStatus now .running (newJobAt sys), ?_, ?_, ?_, hact, rfl⟩
    · have heq : (fun j => if j.id = sys.storage.currentJobId
          then setJobStatus now .running j else j) j0 = j0 := if_neg hid
      have hmem := List.mem_map_of_mem (fun j => if j.id = sys.storage.currentJobId
          then setJobStatus now .running j else j)
        (List.mem_append_left [newJobAt sys] hj0)
      rw [heq] at hmem
      exact hmem
    · have heq : (fun j => if j.id = sys.storage.currentJobId
          then setJobStatus now .running j else j) (newJobAt sys) =
          setJobStatus now .running (newJobAt sys) := if_pos rfl
      have hmem := List.mem_map_of_mem (fun j => if j.id = sys.storage.currentJobId
          then setJobStatus now .running j else j)
        (List.mem_append_right sys.storage.jobs (List.mem_singleton.mpr (rfl : newJobAt sys = newJobAt sys)))
      rw [heq] at hmem
      exact hmem
    · exact hid

/-- Witness for C2's amended theorem on the concrete two-job scenario. -/
theorem c2_amended_start_not_guarded_by_active_job_witness :
    (startValidation 5 c2Sys).2 = .ok ∧
    ∃ j1 j2, j1 ∈ (startValidation 5 c2Sys).1.storage.jobs ∧
      j2 ∈ (startValidation 5 c2Sys).1.storage.jobs ∧ j1.id ≠ j2.id ∧
      (j1.status = .running ∨ j1.status = .paused) ∧ j2.status = .running :=
  c2_amended_start_not_guarded_by_active_job.2 5 c2Sys c2Job (by decide)
    (by decide) (by decide) (by decide)

/-! ## C3 -/

/-- C3: after a successful stop of a running job, the drain cycle of the
in-flight batch finds the queue empty (stop cleared it) and overwrites the
`stopped` status with `completed` — `stopped` is not terminal in the code. -/
theorem c3_stop_then_drain_marks_completed :
    (stopValidation 10 c3Sys).2 = .ok ∧
    getJobStatus (stopValidation 10 c3Sys).1 1 = some .stopped ∧
    getJobStatus (drainTail 11 (stopValidation 10 c3Sys).1) 1 = some .completed ∧
    JobStatus.stopped ≠ JobStatus.completed := by
  decide

/-! ## C4 -/

/-- C4 counterexample: one account is already `valid` from an earlier run
and one is `pending`; a new job snapshots `total = 1`, the batch validates
the pending account, and the progress fold then stores `processed = 2 > 1 =
total` (while `processed = valid + invalid + error` still holds). -/
theorem c4_counterexample :
    c4S3.jobs.map (fun j => (j.processedAccounts, j.validAccounts,
      j.invalidAccounts, j.errorAccounts, j.totalAccounts)) = [(2, 2, 0, 0, 1)] ∧
    ¬(2 ≤ 1) := by
  decide

/-- C4 as amended: `processed = valid + invalid + error` holds for the
counters the progress fold computes over any account table; the job created
by a start snapshots `total` as the pending count; and `processed ≤ total`
holds provided every account in storage was pending at start — it can fail
otherwise, because `processed` counts all non-pending accounts globally. -/
theorem c4_amended_counter_invariants :
    (∀ l : List Account, countProcessed l = countValid l + countInvalid l + countError l) ∧
    (∀ (now : Nat) (sys : SysState), countPending sys.storage.accounts ≠ 0 →
       ∃ j, j ∈ (startValidation now sys).1.storage.jobs ∧
         j.id = sys.storage.currentJobId ∧ j.status = .running ∧
         j.totalAccounts = countPending sys.storage.accounts ∧
         (startValidation now sys).1.storage.accounts = sys.storage.accounts) ∧
    (∀ (s : StorageState) (ops : List UpdOp),
       (∀ a ∈ s.accounts, a.status = .pending) →
       countProcessed ((applyUpdates ops s).accounts) ≤ countPending s.accounts) := by
  refine ⟨counters_partition, ?_, ?_⟩
  · intro now sys hpend
    have h : ¬(sys.storage.accounts.filter (fun a => a.status = .pending)).length = 0 := by
      simpa [countPending] using hpend
    simp only [startValidation]
    rw [if_neg h]
    refine ⟨setJobStatus now .running (newJobAt sys), ?_, rfl, rfl, rfl, rfl⟩
    have heq : (fun j => if j.id = sys.storage.currentJobId
        then setJobStatus now .running j else j) (newJobAt sys) =
        setJobStatus now .running (newJobAt sys) := if_pos rfl
    have hmem := List.mem_map_of_mem (fun j => if j.id = sys.storage.currentJobId
        then setJobStatus now .running j else j)
      (List.mem_append_right sys.storage.jobs (List.mem_singleton.mpr (rfl : newJobAt sys = newJobAt sys)))
    rw [heq] at hmem
    exact hmem
  · intro s ops hall
    have h1 : countProcessed ((applyUpdates ops s).accounts) ≤
        (applyUpdates ops s).accounts.length := List.length_filter_le _ _
    rw [applyUpdates_length] at h1
    have h2 : countPending s.accounts = s.accounts.length := by
      unfold countPending
      rw [List.filter_eq_self.mpr (fun a ha => by simp [hall a ha])]
    omega

/-- Witness for C4's amended theorem at concrete states. -/
theorem c4_amended_counter_invariants_witness :
    (∃ j, j ∈ (startValidation 3 c4wSys).1.storage.jobs ∧
       j.id = c4wSys.storage.currentJobId ∧ j.status = .running ∧
       j.totalAccounts = countPending c4wSys.storage.accounts ∧
       (startValidation 3 c4wSys).1.storage.accounts = c4wSys.storage.accounts) ∧
    countProcessed ((applyUpdates [⟨6, 4, .valid, none, none⟩] c4wSys.storage).accounts) ≤
      countPending c4wSys.storage.accounts :=
  ⟨c4_amended_counter_invariants.2.1 3 c4wSys (by decide),
   c4_amended_counter_invariants.2.2 c4wSys.storage [⟨6, 4, .valid, none, none⟩]
     (by intro a ha; fin_cases ha <;> rfl)⟩

/-! ## C9 -/

/-- C9: a pause request while the current job is not `running`, or a resume
request while it is not `paused`, returns the rejection response and leaves
the whole system state — statuses, timestamps and counters — unchanged. -/
theorem c9_invalid_transition_rejected (now : Nat) (sys : SysState) :
    (statusOfCurrent sys.storage ≠ some .running →
       pauseValidation now sys = (sys, .rejected)) ∧
    (statusOfCurrent sys.storage ≠ some .paused →
       resumeValidation now sys = (sys, .rejected)) := by
  constructor
  · intro h
    simp only [pauseValidation]
    cases hc : getCurrentJob sys.storage with
    | none => simp only [hc]
    | some j =>
      have hjs : ¬j.status = .running := by
        intro hs
        exact h (by unfold statusOfCurrent; rw [hc, Option.map_some', hs])
      simp only [hc]
      rw [if_neg hjs]
  · intro h
    simp only [resumeValidation]
    cases hc : getCurrentJob sys.storage with
    | none => simp only [hc]
    | some j =>
      have hjs : ¬j.status = .paused := by
        intro hs
        exact h (by unfold statusOfCurrent; rw [hc, Option.map_some', hs])
      simp only [hc]
      rw [if_neg hjs]

/-- Witness for C9 on a system whose only job is `stopped`. -/
theorem c9_invalid_transition_rejected_witness :
    pauseValidation 5 c9Sys = (c9Sys, .rejected) ∧
    resumeValidation 5 c9Sys = (c9Sys, .rejected) :=
  ⟨(c9_invalid_transition_rejected 5 c9Sys).1 (by decide),
   (c9_invalid_transition_rejected 5 c9Sys).2 (by decide)⟩

/-! ## C10 -/

/-- C10: a status update of an existing account stamps `validatedAt` with
the update time, stores the given status, preserves `storeUrl` and
`errorMessage` whenever the corresponding argument is absent, never clears
either of them (a `null` after the update implies it was `null` before), and
leaves `id`, `fileId`, `email` and `password` untouched. -/
theorem c10_update_stamps_and_preserves (now : Nat) (s : StorageState)
    (id : Nat) (st : AccountStatus) (u e : Option String) (a : Account)
    (ha : a ∈ s.accounts) (hid : a.id = id) :
    applyStatusUpdate now id st u e a ∈ (updateAccountStatus now s id st u e).accounts ∧
    (applyStatusUpdate now id st u e a).validatedAt = some now ∧
    (applyStatusUpdate now id st u e a).status = st ∧
    (u = none → (applyStatusUpdate now id st u e a).storeUrl = a.storeUrl) ∧
    (e = none → (applyStatusUpdate now id st u e a).errorMessage = a.errorMessage) ∧
    ((applyStatusUpdate now id st u e a).storeUrl = none → a.storeUrl = none) ∧
    ((applyStatusUpdate now id st u e a).errorMessage = none → a.errorMessage = none) ∧
    (applyStatusUpdate now id st u e a).id = a.id ∧
    (applyStatusUpdate now id st u e a).fileId = a.fileId ∧
    (applyStatusUpdate now id st u e a).email = a.email ∧
    (applyStatusUpdate now id st u e a).password = a.password := by
  have hupd : applyStatusUpdate now id st u e a =
      { a with
        status := st
        storeUrl := jsOrElse u a.storeUrl
        errorMessage := jsOrElse e a.errorMessage
        validatedAt := some now } := by
    unfold applyStatusUpdate
    rw [if_pos hid]
  refine ⟨List.mem_map_of_mem _ ha, ?_, ?_, ?_, ?_, ?_, ?_, ?_, ?_, ?_, ?_⟩
  · rw [hupd]
  · rw [hupd]
  · intro hu
    subst hu
    rw [hupd]
    rfl
  · intro he
    subst he
    rw [hupd]
    rfl
  · rw [hupd]
    exact jsOrElse_none_of u a.storeUrl
  · rw [hupd]
    exact jsOrElse_none_of e a.errorMessage
  · rw [hupd]
  · rw [hupd]
  · rw [hupd]
  · rw [hupd]

/-- Witness for C10 on a concrete account whose stored `storeUrl` and
`errorMessage` survive an update that supplies neither. -/
theorem c10_update_stamps_and_preserves_witness :
    applyStatusUpdate 9 3 .valid none none c10Acct ∈
      (updateAccountStatus 9 c10State 3 .valid none none).accounts ∧
    (applyStatusUpdate 9 3 .valid none none c10Acct).validatedAt = some 9 ∧
    (applyStatusUpdate 9 3 .valid none none c10Acct).status = .valid ∧
    ((none : Option String) = none →
      (applyStatusUpdate 9 3 .valid none none c10Acct).storeUrl = c10Acct.storeUrl) ∧
    ((none : Option String) = none →
      (applyStatusUpdate 9 3 .valid none none c10Acct).errorMessage = c10Acct.errorMessage) ∧
    ((applyStatusUpdate 9 3 .valid none none c10Acct).storeUrl = none →
      c10Acct.storeUrl = none) ∧
    ((applyStatusUpdate 9 3 .valid none none c10Acct).errorMessage = none →
      c10Acct.errorMessage = none) ∧
    (applyStatusUpdate 9 3 .valid none none c10Acct).id = c10Acct.id ∧
    (applyStatusUpdate 9 3 .valid none none c10Acct).fileId = c10Acct.fileId ∧
    (applyStatusUpdate 9 3 .valid none none c10Acct).email = c10Acct.email ∧
    (applyStatusUpdate 9 3 .valid none none c10Acct).password = c10Acct.password :=
  c10_update_stamps_and_preserves 9 c10State 3 .valid none none c10Acct
    (by decide) rfl
